import Mathlib

/-!
Shallow embedding of `projectgen.py` (class `ProjectAssistant`).

Text is modelled as `List Char`; Python string primitives (`str.find`,
slicing, `str.strip`, `str.split`) are given executable counterparts with
the same semantics on the inputs that occur here.  The filesystem is an
association list from resolved absolute paths (segment lists) to file
contents, plus a list of existing directories; fallible writes are driven
by an oracle `FsEnv` standing for the OS (a `some msg` entry is the
`str(e)` of the exception the corresponding `open`/`write` would raise).
-/

set_option autoImplicit false

namespace ProjectGen

/-- Convert a string literal to the `List Char` representation used throughout. -/
def chars (s : String) : List Char := s.data

/-- An absolute filesystem path, as the list of its segments after the OS
has resolved `.` and `..` (the model of what a path denotes at `open` time). -/
abbrev FilePath := List (List Char)

/-- `occursAt hay needle i` holds when `needle` occurs in `hay` starting at index `i`. -/
def occursAt (hay needle : List Char) (i : Nat) : Bool :=
  needle.isPrefixOf (hay.drop i)

/-- Model of Python `hay.find(needle, start)`: the least index `i ≥ start` at which
`needle` occurs, `none` when there is no occurrence (Python returns `-1`). -/
def findFrom (hay needle : List Char) (start : Nat) : Option Nat :=
  ((List.range (hay.length + 1)).filter
    (fun i => decide (start ≤ i) && occursAt hay needle i)).head?

/-- Model of the Python slice `hay[a:b]` for `0 ≤ a, b` (clamping, as in Python). -/
def pySlice (hay : List Char) (a b : Nat) : List Char :=
  (hay.take b).drop a

/-- Model of Python `s.strip()`: remove leading and trailing whitespace. -/
def pyStrip (s : List Char) : List Char :=
  ((s.dropWhile Char.isWhitespace).reverse.dropWhile Char.isWhitespace).reverse

/-- Model of Python `s.split(sep)[0]`: the text before the first occurrence of
`sep`, or all of `s` when `sep` does not occur. -/
def splitFirstOn (s sep : List Char) : List Char :=
  match findFrom s sep 0 with
  | some i => s.take i
  | none => s

/-- One step of OS path resolution: `..` pops a segment, `.` and empty segments
are ignored, anything else is pushed. -/
def resolveStep (acc : FilePath) (seg : List Char) : FilePath :=
  if seg = chars ".." then acc.dropLast
  else if seg = chars "." ∨ seg = [] then acc
  else acc ++ [seg]

/-- The absolute path denoted by `root / rel` once the OS resolves it
(`pathlib`'s `/` followed by what `open`/`mkdir` act on).  A `rel` beginning
with `/` replaces `root`, as `pathlib.Path.__truediv__` does. -/
def resolveRel (root : FilePath) (rel : List Char) : FilePath :=
  (rel.splitOn '/').foldl resolveStep (if rel.head? = some '/' then [] else root)

/-- `underRoot root p` holds when `p` is `root` itself or a descendant of it. -/
def underRoot (root p : FilePath) : Bool :=
  root.isPrefixOf p

/-- The filesystem state: regular files (resolved path ↦ contents) and the
set of directories that exist. -/
structure FS where
  files : List (FilePath × List Char)
  dirs : List FilePath
  deriving DecidableEq

/-- The empty filesystem. -/
def emptyFS : FS := ⟨[], []⟩

/-- Look a path up among the regular files. -/
def lookup_file : List (FilePath × List Char) → FilePath → Option (List Char)
  | [], _ => none
  | e :: rest, p => if e.1 = p then some e.2 else lookup_file rest p

/-- Model of `open(p, "w").write(c)` on the file map: the path now maps to
exactly `c`, any previous entry for it is gone. -/
def set_file (fs : FS) (p : FilePath) (c : List Char) : FS :=
  ⟨(p, c) :: fs.files.filter (fun e => decide (e.1 ≠ p)), fs.dirs⟩

/-- Add one directory to the directory list if not already present. -/
def add_dir (ds : List FilePath) (d : FilePath) : List FilePath :=
  if d ∈ ds then ds else ds ++ [d]

/-- Add a list of directories in order. -/
def add_dirs (ds : List FilePath) (l : List FilePath) : List FilePath :=
  l.foldl add_dir ds

/-- All ancestors of a path (including the path itself and the filesystem root). -/
def ancestors (p : FilePath) : List FilePath :=
  (List.range (p.length + 1)).map (fun k => p.take k)

/-- Model of `Path.mkdir(exist_ok=True, parents=True)`: the directory and all
its ancestors exist afterwards; files are untouched. -/
def mkdir_parents (fs : FS) (p : FilePath) : FS :=
  ⟨fs.files, add_dirs fs.dirs (ancestors p)⟩

/-- Model of `Path.exists()`: true for a regular file or a directory. -/
def path_exists (fs : FS) (p : FilePath) : Bool :=
  (lookup_file fs.files p).isSome || decide (p ∈ fs.dirs)

/-- The OS oracle for fallible writes: `writeErr p = some msg` means writing
the file at resolved path `p` raises an exception whose `str` is `msg`. -/
structure FsEnv where
  writeErr : FilePath → Option (List Char)

/-- The environment in which every write succeeds. -/
def allOk : FsEnv := ⟨fun _ => none⟩

/-- Model of `self._read_file` / reading a file back: `open(root / p).read()`. -/
def read_file (fs : FS) (root : FilePath) (p : List Char) : Option (List Char) :=
  lookup_file fs.files (resolveRel root p)

/-- The spec's `EditOutcome`: result of applying one edit instruction. -/
inductive EditOutcome where
  | applied (path : List Char)
  | failed (path : List Char) (msg : List Char)
  deriving DecidableEq

/-- The spec's `EditInstruction`: one parsed `FILE_EDIT` directive.
`spanStart`/`spanStop` are the offsets of the text the renderer substitutes
(`file_edit_start` and `file_edit_end + 14` in the source). -/
structure EditInstruction where
  path : List Char
  content : List Char
  spanStart : Nat
  spanStop : Nat
  deriving DecidableEq

/-- The literal marker `"FILE_EDIT: "` searched for by `_process_file_edits`. -/
def feMarker : List Char := chars "FILE_EDIT: "

/-- The literal marker `"END_FILE_EDIT"`. -/
def feEndMarker : List Char := chars "END_FILE_EDIT"

/-- The success status line `_process_file_edits` substitutes for an applied
directive: `f"🔄 APPLIED CHANGES TO: {file_path_str} 🔄"`. -/
def applied_status (p : List Char) : List Char :=
  chars "🔄 APPLIED CHANGES TO: " ++ p ++ chars " 🔄"

/-- The failure status line: `f"❌ ERROR UPDATING {file_path_str}: {str(e)} ❌"`. -/
def failed_status (p msg : List Char) : List Char :=
  chars "❌ ERROR UPDATING " ++ p ++ chars ": " ++ msg ++ chars " ❌"

/-- The one-line status string substituted for a consumed directive,
chosen by its outcome. -/
def status_line : EditOutcome → List Char
  | EditOutcome.applied p => applied_status p
  | EditOutcome.failed p m => failed_status p m

/-- Model of the edit-application block of `_process_file_edits` (the spec's
`EditApplier.apply`): `full_path = self.current_project_path / file_path_str;
full_path.parent.mkdir(exist_ok=True, parents=True); open(full_path, "w").write(content)`.
No path validation of any kind is performed before the write.  The git
`add`/`commit` that follows a successful write is external, best-effort and
swallowed, so it has no effect on the state modelled here. -/
def apply_edit (env : FsEnv) (root : FilePath) (fs : FS) (inst : EditInstruction) :
    FS × EditOutcome :=
  let target := resolveRel root inst.path
  let fs1 := mkdir_parents fs target.dropLast
  match env.writeErr target with
  | none => (set_file fs1 target inst.content, EditOutcome.applied inst.path)
  | some m => (fs1, EditOutcome.failed inst.path m)

/-- Model of Python `s.replace(old, new)` for nonempty `old`: every
non-overlapping occurrence, left to right; fuel is `s.length + 1`, enough
because each step consumes at least one character of `s`. -/
def replaceAllAux (old new : List Char) : Nat → List Char → List Char
  | 0, s => s
  | fuel + 1, s =>
    match findFrom s old 0 with
    | none => s
    | some i => s.take i ++ new ++ replaceAllAux old new fuel (s.drop (i + old.length))

/-- Python `s.replace(old, new)`. -/
def replaceAll (s old new : List Char) : List Char :=
  replaceAllAux old new (s.length + 1) s

/-- The parsing skeleton of `_process_file_edits` (the spec's
`EditProtocolParser.parse`), with the same scan: find `"FILE_EDIT: "` from
`start`; find the end of that line; find `"END_FILE_EDIT"` after it — any
failed find ends the scan with no further instruction; otherwise emit the
stripped path (`response[file_edit_start + 11 : file_path_end]`) and stripped
content (`response[file_path_end + 1 : file_edit_end]`) and continue from
`file_edit_end`.  Fuel `response.length + 1` suffices: the scan position
strictly increases each iteration. -/
def parse_file_edits_aux (response : List Char) : Nat → Nat → List EditInstruction
  | 0, _ => []
  | fuel + 1, start =>
    match findFrom response feMarker start with
    | none => []
    | some s =>
      match findFrom response (chars "\n") s with
      | none => []
      | some pEnd =>
        match findFrom response feEndMarker pEnd with
        | none => []
        | some eIdx =>
          ⟨pyStrip (pySlice response (s + 11) pEnd),
           pyStrip (pySlice response (pEnd + 1) eIdx),
           s, eIdx + 14⟩ :: parse_file_edits_aux response fuel eIdx

/-- `EditProtocolParser.parse` over a whole response. -/
def parse_file_edits (response : List Char) : List EditInstruction :=
  parse_file_edits_aux response (response.length + 1) 0

/-- Full model of `_process_file_edits`: the same scan as
`parse_file_edits`, but each recognized directive is applied to the
filesystem and its span text `response[file_edit_start : file_edit_end + 14]`
is substituted (Python `str.replace` on the running `edited_response`) by the
status line for its outcome.  Returns the final filesystem and the edited
response text. -/
def process_file_edits_aux (env : FsEnv) (root : FilePath) (response : List Char) :
    Nat → Nat → FS → List Char → FS × List Char
  | 0, _, fs, edited => (fs, edited)
  | fuel + 1, start, fs, edited =>
    match findFrom response feMarker start with
    | none => (fs, edited)
    | some s =>
      match findFrom response (chars "\n") s with
      | none => (fs, edited)
      | some pEnd =>
        match findFrom response feEndMarker pEnd with
        | none => (fs, edited)
        | some eIdx =>
          let inst : EditInstruction :=
            ⟨pyStrip (pySlice response (s + 11) pEnd),
             pyStrip (pySlice response (pEnd + 1) eIdx),
             s, eIdx + 14⟩
          let r := apply_edit env root fs inst
          process_file_edits_aux env root response fuel eIdx r.1
            (replaceAll edited (pySlice response s (eIdx + 14)) (status_line r.2))

/-- `_process_file_edits(self, response)`: starts with
`edited_response = response` and scans from offset 0. -/
def process_file_edits (env : FsEnv) (root : FilePath) (fs : FS) (response : List Char) :
    FS × List Char :=
  process_file_edits_aux env root response (response.length + 1) 0 fs response

/-- The application phase of `_process_file_edits`, factored out of the fused
loop: apply the parsed instructions to the filesystem in order, pairing each
with its outcome. -/
def apply_all (env : FsEnv) (root : FilePath) :
    List EditInstruction → FS → FS × List (EditInstruction × EditOutcome)
  | [], fs => (fs, [])
  | i :: rest, fs =>
    let r := apply_edit env root fs i
    let rr := apply_all env root rest r.1
    (rr.1, (i, r.2) :: rr.2)

/-- The rendering phase of `_process_file_edits`, factored out of the fused
loop: for each consumed directive in order, perform the Python
`edited_response.replace(response[spanStart:spanStop], status)` — a GLOBAL
substring substitution of the directive's span text (which runs through
`file_edit_end + 14`, one character past the `END_FILE_EDIT` marker) by the
status line of its outcome. -/
def render_statuses (response : List Char) :
    List (EditInstruction × EditOutcome) → List Char → List Char
  | [], edited => edited
  | io :: rest, edited =>
    render_statuses response rest
      (replaceAll edited (pySlice response io.1.spanStart io.1.spanStop)
        (status_line io.2))

/-- A `structure` item of the project plan (the spec's `PlanEntry`). -/
inductive EntryKind where
  | file
  | directory
  deriving DecidableEq

/-- One entry of the plan's `structure` list: `{"path": …, "type": …, "content": …}`;
`content` is `item.get('content', '')`, so it defaults to the empty string. -/
structure PlanEntry where
  path : List Char
  kind : EntryKind
  content : List Char := []
  deriving DecidableEq

/-- The project plan consumed by `_create_project` (the spec's `ProjectPlan`);
`structure'` is the plan's `structure` list (`structure` is reserved in Lean). -/
structure ProjectPlan where
  project_name : List Char
  description : List Char
  technologies : List (List Char)
  dependencies : List (List Char)
  structure' : List PlanEntry
  deriving DecidableEq

/-- Result of `_create_project`: `None` on declined overwrite, the project
path on success; an uncaught write exception aborts materialization. -/
inductive CreateResult where
  | declined
  | ioFailure (p : FilePath) (msg : List Char)
  | created (root : FilePath)
  deriving DecidableEq

/-- The python setup block `_create_project` appends to the README when
`"python"` is among the technologies. -/
def python_setup_block : List Char :=
  chars "```bash\n# Create virtual environment\npython -m venv venv\nsource venv/bin/activate  # On Windows: venv\\Scripts\\activate\n\n# Install dependencies\npip install -r requirements.txt\n```\n"

/-- The README.md contents `_create_project` writes, reproduced f-write by f-write. -/
def readme_text (plan : ProjectPlan) : List Char :=
  chars "# " ++ plan.project_name ++ chars "\n\n" ++ plan.description ++ chars "\n\n"
    ++ chars "## Technologies\n\n"
    ++ plan.technologies.foldr (fun t acc => chars "- " ++ t ++ chars "\n" ++ acc) []
    ++ chars "\n## Setup\n\n"
    ++ (if chars "python" ∈ plan.technologies then python_setup_block else [])

/-- The requirements.txt contents: one dependency per line, input order. -/
def manifest_text (plan : ProjectPlan) : List Char :=
  plan.dependencies.foldr (fun d acc => d ++ chars "\n" ++ acc) []

/-- The `for item in project_plan['structure']` loop of `_create_project`:
directories via `mkdir(exist_ok=True, parents=True)`, files via parent mkdir
then write; paths joined directly onto the project root with no validation.
Returns the filesystem and, when a write raised, the offending path and message
(the exception propagates, ending the loop). -/
def write_entries (env : FsEnv) (root : FilePath) :
    List PlanEntry → FS → FS × Option (FilePath × List Char)
  | [], fs => (fs, none)
  | e :: rest, fs =>
    let full := resolveRel root e.path
    match e.kind with
    | EntryKind.directory => write_entries env root rest (mkdir_parents fs full)
    | EntryKind.file =>
      let fs1 := mkdir_parents fs full.dropLast
      match env.writeErr full with
      | some m => (fs1, some (full, m))
      | none => write_entries env root rest (set_file fs1 full e.content)

/-- Model of `_create_project` (the spec's `ProjectMaterializer.materialize`).
`confirm_overwrite` is the boolean outcome of the interactive
`"Overwrite? (y/n)"` prompt, consulted only when the target already exists.
Order of effects, as in the source: existence check / confirmation; project
directory mkdir; README.md; requirements.txt when `"python"` is among the
technologies; then every plan entry in order. -/
def create_project (env : FsEnv) (projects_dir : FilePath) (plan : ProjectPlan)
    (confirm_overwrite : Bool) (fs : FS) : CreateResult × FS :=
  let project_path := resolveRel projects_dir plan.project_name
  if path_exists fs project_path && !confirm_overwrite then
    (CreateResult.declined, fs)
  else
    let fs1 := mkdir_parents fs project_path
    let readme := project_path ++ [chars "README.md"]
    match env.writeErr readme with
    | some m => (CreateResult.ioFailure readme m, fs1)
    | none =>
      let fs2 := set_file fs1 readme (readme_text plan)
      let manifest := project_path ++ [chars "requirements.txt"]
      if chars "python" ∈ plan.technologies then
        match env.writeErr manifest with
        | some m => (CreateResult.ioFailure manifest m, fs2)
        | none =>
          let fs3 := set_file fs2 manifest (manifest_text plan)
          let r := write_entries env project_path plan.structure' fs3
          match r.2 with
          | some pm => (CreateResult.ioFailure pm.1 pm.2, r.1)
          | none => (CreateResult.created project_path, r.1)
      else
        let r := write_entries env project_path plan.structure' fs2
        match r.2 with
        | some pm => (CreateResult.ioFailure pm.1 pm.2, r.1)
        | none => (CreateResult.created project_path, r.1)

/-- One requirements.txt line as `_load_project_info` parses it:
`line.strip().split("==")[0].split(">=")[0]`. -/
def strip_dep (line : List Char) : List Char :=
  splitFirstOn (splitFirstOn (pyStrip line) (chars "==")) (chars ">=")

/-- The technology-inference part of `_load_project_info` (the spec's
`ProjectInspector.inspect`), reading from the modelled filesystem.
`package_deps` stands for the dependency names obtained from parsing
`package.json` (JSON parsing is external; a failed parse is the empty list,
matching the swallowed exception).  Order as in the source: `package.json`
marks javascript+node then appends deduplicated dependency names;
`requirements.txt` marks python then appends each nonempty parsed dependency
not already present; if still empty, fall back to `*.py` / `*.js` globbing;
if still empty, `["unknown"]`. -/
def load_project_technologies (fs : FS) (root : FilePath)
    (package_deps : List (List Char)) : List (List Char) :=
  let t1 : List (List Char) :=
    if (lookup_file fs.files (root ++ [chars "package.json"])).isSome then
      package_deps.foldl (fun acc d => if d ∈ acc then acc else acc ++ [d])
        [chars "javascript", chars "node"]
    else []
  let t2 : List (List Char) :=
    match lookup_file fs.files (root ++ [chars "requirements.txt"]) with
    | some content =>
      (content.splitOn '\n').foldl
        (fun acc line =>
          let dep := strip_dep line
          if dep ≠ [] ∧ dep ∉ acc then acc ++ [dep] else acc)
        (t1 ++ [chars "python"])
    | none => t1
  if t2 = [] then
    let anyPy := fs.files.any (fun e =>
      underRoot root e.1 && (chars ".py").isSuffixOf (e.1.getLastD []))
    let anyJs := fs.files.any (fun e =>
      underRoot root e.1 && (chars ".js").isSuffixOf (e.1.getLastD []))
    let t4 := (if anyPy then [chars "python"] else [])
      ++ (if anyJs then [chars "javascript"] else [])
    if t4 = [] then [chars "unknown"] else t4
  else t2

/-- Is this line a code-fence toggle for `_format_terminal_text`
(`line.strip().startswith('```')`)? -/
def is_fence_line (line : List Char) : Bool :=
  (chars "```").isPrefixOf (pyStrip line)

/-- The banner `_format_terminal_text` emits when a code block opens:
`f"\n\033[1m# {lang} code:\033[0m" if lang else "\n\033[1m# Code:\033[0m"`. -/
def code_banner (lang : List Char) : List Char :=
  if lang ≠ [] then chars "\n\x1b[1m# " ++ lang ++ chars " code:\x1b[0m"
  else chars "\n\x1b[1m# Code:\x1b[0m"

/-- The banner emitted when a code block closes. -/
def end_banner : List Char := chars "\x1b[1m# End of code\x1b[0m\n"

/-- The loop state of `_format_terminal_text`: collected output lines,
the `in_code_block` flag, and the pending `code_lines`. -/
structure FmtState where
  result : List (List Char)
  inCode : Bool
  codeLines : List (List Char)
  deriving DecidableEq

/-- One iteration of the `for line in text.split('\n')` loop of
`_format_terminal_text`.  `wrap` stands for `textwrap.fill(_, width=80)`
(an external library call, passed in as a parameter). -/
def fmt_line (wrap : List Char → List Char) (st : FmtState) (line : List Char) : FmtState :=
  if is_fence_line line then
    if !st.inCode then
      ⟨st.result ++ [code_banner (pyStrip ((pyStrip line).drop 3))], true, st.codeLines⟩
    else
      ⟨st.result ++ [chars "\n" ++ List.intercalate (chars "\n") st.codeLines, end_banner],
       false, []⟩
  else if st.inCode then
    ⟨st.result, st.inCode, st.codeLines ++ [line]⟩
  else
    ⟨st.result ++ [if pyStrip line ≠ [] then wrap line else line], st.inCode, st.codeLines⟩

/-- Model of `_format_terminal_text` (the spec's terminal reflow): fold the
per-line step over `text.split('\n')` starting outside any code block, then
`"\n".join(result)` — note the collected `code_lines` of an unclosed fence
never reach `result`. -/
def format_terminal_text (wrap : List Char → List Char) (text : List Char) : List Char :=
  List.intercalate (chars "\n")
    ((text.splitOn '\n').foldl (fmt_line wrap) ⟨[], false, []⟩).result

/-- A chat message (the spec's `Message`); `role` is the literal role string. -/
structure Message where
  role : List Char
  content : List Char
  deriving DecidableEq

/-- One round of the `chat_mode` loop after the user typed `user_input` and
the collaborator returned `assistant_response`, in source order: append the
user message; run `_process_file_edits` on the response (mutating the
filesystem and producing the substituted text); append the ORIGINAL
`assistant_response` as the assistant message; format the substituted text
for display.  Returns (message history, filesystem, displayed text). -/
def chat_round (env : FsEnv) (root : FilePath) (fs : FS)
    (wrap : List Char → List Char) (messages : List Message)
    (user_input assistant_response : List Char) :
    List Message × FS × List Char :=
  let messages1 := messages ++ [⟨chars "user", user_input⟩]
  let r := process_file_edits env root fs assistant_response
  (messages1 ++ [⟨chars "assistant", assistant_response⟩], r.1,
   format_terminal_text wrap r.2)

/-! ### Helper lemmas -/

theorem filter_self_idem {α : Type} (p : α → Bool) (l : List α) :
    (l.filter p).filter p = l.filter p := by
  induction l with
  | nil => rfl
  | cons a t ih => by_cases h : p a = true <;> simp [List.filter_cons, h, ih]

theorem mem_add_dir {ds : List FilePath} {x : FilePath} (d : FilePath) (h : x ∈ ds) :
    x ∈ add_dir ds d := by
  unfold add_dir
  split
  · exact h
  · simp [h]

theorem self_mem_add_dir (ds : List FilePath) (d : FilePath) : d ∈ add_dir ds d := by
  unfold add_dir
  split
  · assumption
  · simp

theorem mem_add_dirs_left {ds l : List FilePath} {x : FilePath} (h : x ∈ ds) :
    x ∈ add_dirs ds l := by
  induction l generalizing ds with
  | nil => exact h
  | cons a t ih => exact ih (mem_add_dir a h)

theorem mem_add_dirs_right {ds l : List FilePath} {x : FilePath} (h : x ∈ l) :
    x ∈ add_dirs ds l := by
  induction l generalizing ds with
  | nil => cases h
  | cons a t ih =>
    rcases List.mem_cons.mp h with rfl | h'
    · show x ∈ add_dirs (add_dir ds x) t
      exact mem_add_dirs_left (self_mem_add_dir ds x)
    · exact ih h'

theorem add_dirs_eq_of_subset {ds l : List FilePath} (h : ∀ x ∈ l, x ∈ ds) :
    add_dirs ds l = ds := by
  induction l with
  | nil => rfl
  | cons a t ih =>
    have ha : a ∈ ds := h a (by simp)
    show add_dirs (add_dir ds a) t = ds
    rw [add_dir, if_pos ha]
    exact ih (fun x hx => h x (by simp [hx]))

theorem add_dirs_idem (ds l : List FilePath) :
    add_dirs (add_dirs ds l) l = add_dirs ds l :=
  add_dirs_eq_of_subset (fun _ hx => mem_add_dirs_right hx)

theorem findFrom_eq_none {hay needle : List Char} (start : Nat)
    (h : ∀ i, i < hay.length + 1 → occursAt hay needle i = false) :
    findFrom hay needle start = none := by
  unfold findFrom
  rw [List.head?_eq_none_iff, List.filter_eq_nil_iff]
  intro i hi
  rw [h i (List.mem_range.mp hi)]
  simp

theorem fmt_result_fixed (wrap : List Char → List Char) (ls : List (List Char))
    (st : FmtState) (hc : st.inCode = true) (h : ∀ l ∈ ls, is_fence_line l = false) :
    (ls.foldl (fmt_line wrap) st).result = st.result := by
  induction ls generalizing st with
  | nil => rfl
  | cons a t ih =>
    have ha : is_fence_line a = false := h a (by simp)
    have hstep : fmt_line wrap st a = ⟨st.result, st.inCode, st.codeLines ++ [a]⟩ := by
      simp [fmt_line, ha, hc]
    rw [List.foldl_cons, hstep]
    exact ih ⟨st.result, st.inCode, st.codeLines ++ [a]⟩ hc (fun l hl => h l (by simp [hl]))

theorem process_aux_eq_parse_apply_render (env : FsEnv) (root : FilePath)
    (response : List Char) :
    ∀ (fuel start : Nat) (fs : FS) (edited : List Char),
      process_file_edits_aux env root response fuel start fs edited
        = ((apply_all env root (parse_file_edits_aux response fuel start) fs).1,
           render_statuses response
             ((apply_all env root (parse_file_edits_aux response fuel start) fs).2)
             edited) := by
  intro fuel
  induction fuel with
  | zero => intro start fs edited; rfl
  | succ n ih =>
    intro start fs edited
    simp only [process_file_edits_aux, parse_file_edits_aux]
    cases h1 : findFrom response feMarker start with
    | none => simp [h1, apply_all, render_statuses]
    | some s =>
      cases h2 : findFrom response (chars "\n") s with
      | none => simp [h1, h2, apply_all, render_statuses]
      | some pEnd =>
        cases h3 : findFrom response feEndMarker pEnd with
        | none => simp [h1, h2, h3, apply_all, render_statuses]
        | some eIdx => simp [h1, h2, h3, apply_all, render_statuses, ih]

/-! ### Claims -/

/-- C1 counterexample: there is no `PathEscape` failure and files ARE created
outside the project root.  The edit directive `FILE_EDIT: ../evil` applied
under root `/home/proj` writes `/home/evil` (not a descendant of the root)
and renders the applied-success status; likewise a plan entry with path
`../evil2` materializes a file outside the project root, and
`_create_project` reports success. -/
theorem c1_counterexample :
    (let r := process_file_edits allOk [chars "home", chars "proj"] emptyFS
        (chars "FILE_EDIT: ../evil\nhacked\nEND_FILE_EDIT")
     lookup_file r.1.files [chars "home", chars "evil"] = some (chars "hacked")
     ∧ underRoot [chars "home", chars "proj"] [chars "home", chars "evil"] = false
     ∧ r.2 = applied_status (chars "../evil"))
    ∧ (let q := create_project allOk [chars "p"]
         ⟨chars "demo", chars "d", [], [], [⟨chars "../evil2", EntryKind.file, chars "x"⟩]⟩
         true emptyFS
       lookup_file q.2.files [chars "p", chars "evil2"] = some (chars "x")
       ∧ underRoot [chars "p", chars "demo"] [chars "p", chars "evil2"] = false
       ∧ q.1 = CreateResult.created [chars "p", chars "demo"]) := by
  decide

/-- C1 amended: no escape check exists anywhere on the write path.  For any
edit instruction whose path resolves above the project root (and whose write
the OS does not fail), `apply_edit` reports `applied` — never any
`PathEscape`-style failure — and the file contents appear at the resolved
location outside the root. -/
theorem c1_no_escape_writes (env : FsEnv) (root : FilePath) (fs : FS)
    (inst : EditInstruction)
    (hw : env.writeErr (resolveRel root inst.path) = none)
    (hesc : underRoot root (resolveRel root inst.path) = false) :
    (apply_edit env root fs inst).2 = EditOutcome.applied inst.path
    ∧ lookup_file ((apply_edit env root fs inst).1).files (resolveRel root inst.path)
        = some inst.content
    ∧ underRoot root (resolveRel root inst.path) = false := by
  refine ⟨?_, ?_, hesc⟩ <;> simp [apply_edit, hw, set_file, lookup_file]

/-- Witness for `c1_no_escape_writes` at root `/home/proj`, path `../evil`. -/
theorem c1_no_escape_writes_witness :
    allOk.writeErr (resolveRel [chars "home", chars "proj"] (chars "../evil")) = none
    ∧ underRoot [chars "home", chars "proj"]
        (resolveRel [chars "home", chars "proj"] (chars "../evil")) = false
    ∧ ((apply_edit allOk [chars "home", chars "proj"] emptyFS
          ⟨chars "../evil", chars "h", 0, 0⟩).2 = EditOutcome.applied (chars "../evil")
       ∧ lookup_file ((apply_edit allOk [chars "home", chars "proj"] emptyFS
            ⟨chars "../evil", chars "h", 0, 0⟩).1).files
            (resolveRel [chars "home", chars "proj"] (chars "../evil"))
          = some (chars "h")
       ∧ underRoot [chars "home", chars "proj"]
            (resolveRel [chars "home", chars "proj"] (chars "../evil")) = false) :=
  ⟨rfl, by decide,
   c1_no_escape_writes allOk [chars "home", chars "proj"] emptyFS
     ⟨chars "../evil", chars "h", 0, 0⟩ rfl (by decide)⟩

/-- C2: the edit-directive parser emits no instruction when the text has no
`FILE_EDIT: ` marker (first conjunct, for every text); on a text with two
well-formed non-overlapping directives it emits exactly the two instructions
in document order (second conjunct); and on an unterminated directive it
emits no instruction for that span and stops parsing, not resuming past a
later `FILE_EDIT:` marker (third conjunct). -/
theorem c2_parse_protocol :
    (∀ t : List Char, (∀ i, i < t.length + 1 → occursAt t feMarker i = false) →
       parse_file_edits t = [])
    ∧ parse_file_edits (chars "FILE_EDIT: a\nx\nEND_FILE_EDIT\nFILE_EDIT: b\ny\nEND_FILE_EDIT")
        = [⟨chars "a", chars "x", 0, 29⟩, ⟨chars "b", chars "y", 29, 58⟩]
    ∧ parse_file_edits
        (chars "FILE_EDIT: a\nx\nEND_FILE_EDIT\nFILE_EDIT: c\nunfinished\nFILE_EDIT: d\nalso")
        = [⟨chars "a", chars "x", 0, 29⟩] := by
  refine ⟨?_, by decide, by decide⟩
  intro t h
  have hf : findFrom t feMarker 0 = none := findFrom_eq_none 0 h
  simp [parse_file_edits, parse_file_edits_aux, hf]

/-- Witness for `c2_parse_protocol`: the universally quantified conjunct at
the concrete marker-free text `"hello"`. -/
theorem c2_parse_protocol_witness : parse_file_edits (chars "hello") = [] :=
  c2_parse_protocol.1 (chars "hello") (by decide)

/-- C3 counterexample: the renderer does NOT replace exactly the directive's
original span.  First conjunct: the source replaces
`response[file_edit_start : file_edit_end + 14]` although `"END_FILE_EDIT"`
has 13 characters, so the character immediately after the marker (here `Z`)
is swallowed by the status line instead of being preserved.  Second conjunct:
the substitution is Python `str.replace`, which replaces EVERY occurrence of
the span text — on `S ++ "FILE_EDIT: z\n" ++ S` with
`S = "FILE_EDIT: a\nx\nEND_FILE_EDITZ"` a full span text, directive `z` is
consumed and applied (the file is written, with the second copy of `S` as its
stripped content source), yet both copies of `S` — including text far outside
the first directive's span — are replaced by the first status line, and no
status for `z` is ever rendered. -/
theorem c3_span_counterexample :
    (let r := process_file_edits allOk [chars "r"] emptyFS
        (chars "FILE_EDIT: a\nx\nEND_FILE_EDITZtail")
     r.2 = applied_status (chars "a") ++ chars "tail"
     ∧ r.2 ≠ applied_status (chars "a") ++ chars "Ztail")
    ∧ (let r2 := process_file_edits allOk [chars "r"] emptyFS
         (chars "FILE_EDIT: a\nx\nEND_FILE_EDITZFILE_EDIT: z\nFILE_EDIT: a\nx\nEND_FILE_EDITZ")
       lookup_file r2.1.files [chars "r", chars "z"] = some (chars "FILE_EDIT: a\nx")
       ∧ r2.2 = applied_status (chars "a") ++ chars "FILE_EDIT: z\n"
           ++ applied_status (chars "a")) := by
  decide

/-- C3 amended: for every consumed directive, in order of consumption, the
renderer performs a GLOBAL substring substitution on the running text: every
occurrence of that directive's span text — from the start of its `FILE_EDIT:`
marker through ONE character past the end of its matched `END_FILE_EDIT`
marker (`spanStop = file_edit_end + 14` while the marker has 13 characters,
so the following character, typically the newline, is swallowed) — is
replaced by the one-line status of its outcome, which is distinct for applied
versus failed (they begin with different glyphs), includes the path, and on
failure the reason.  When a directive's span text no longer occurs (consumed
by an earlier replacement), that directive receives no substitution.  First
conjunct: for EVERY environment, root, filesystem and response,
`_process_file_edits` equals parsing, then applying each instruction in
order, then folding exactly this global replacement of
`response[spanStart:spanStop]` by the outcome's status line over the text.
Remaining conjuncts: the two status shapes (path, and reason on failure) and
their distinctness (`==` is `false` since they begin `🔄` versus `❌`). -/
theorem c3_global_span_substitution :
    (∀ (env : FsEnv) (root : FilePath) (fs : FS) (response : List Char),
       process_file_edits env root fs response
         = ((apply_all env root (parse_file_edits response) fs).1,
            render_statuses response
              ((apply_all env root (parse_file_edits response) fs).2) response))
    ∧ (∀ p, status_line (EditOutcome.applied p)
         = chars "🔄 APPLIED CHANGES TO: " ++ p ++ chars " 🔄")
    ∧ (∀ p m, status_line (EditOutcome.failed p m)
         = chars "❌ ERROR UPDATING " ++ p ++ chars ": " ++ m ++ chars " ❌")
    ∧ (∀ p q m, (applied_status p == failed_status q m) = false) := by
  refine ⟨?_, fun _ => rfl, fun _ _ => rfl, ?_⟩
  · intro env root fs response
    exact process_aux_eq_parse_apply_render env root response
      (response.length + 1) 0 fs response
  · intro p q m
    rw [beq_eq_false_iff_ne]
    intro h
    have h2 : (some '🔄' : Option Char) = some '❌' := congrArg List.head? h
    exact absurd h2 (by decide)

/-- C4: when the target project directory already exists and the caller
declines the overwrite confirmation, `_create_project` aborts (`None` in the
source, `declined` here) and the filesystem — files and directories — is
returned exactly unchanged. -/
theorem c4_declined_no_writes (env : FsEnv) (projects_dir : FilePath)
    (plan : ProjectPlan) (fs : FS)
    (h : path_exists fs (resolveRel projects_dir plan.project_name) = true) :
    create_project env projects_dir plan false fs = (CreateResult.declined, fs) := by
  simp [create_project, h]

/-- Witness for `c4_declined_no_writes`: projects dir `/p`, plan `demo`, with
`/p/demo` already an existing directory. -/
theorem c4_declined_no_writes_witness :
    path_exists ⟨[], [[chars "p", chars "demo"]]⟩
      (resolveRel [chars "p"] (chars "demo")) = true
    ∧ create_project allOk [chars "p"] ⟨chars "demo", chars "d", [], [], []⟩ false
        ⟨[], [[chars "p", chars "demo"]]⟩
      = (CreateResult.declined, ⟨[], [[chars "p", chars "demo"]]⟩) :=
  ⟨by decide,
   c4_declined_no_writes allOk [chars "p"] ⟨chars "demo", chars "d", [], [], []⟩
     ⟨[], [[chars "p", chars "demo"]]⟩ (by decide)⟩

set_option maxRecDepth 4000 in
/-- C5: README.md and requirements.txt are written before the plan entries,
so entries take precedence.  With entries naming `README.md` and
`requirements.txt` the final contents are the entry contents; without such
entries the final contents are the generated README text and the manifest
(one dependency per line). -/
theorem c5_bootstrap_before_entries :
    let planO : ProjectPlan := ⟨chars "demo", chars "d", [chars "python"], [chars "flask"],
      [⟨chars "README.md", EntryKind.file, chars "custom"⟩,
       ⟨chars "requirements.txt", EntryKind.file, chars "override"⟩]⟩
    let planN : ProjectPlan := ⟨chars "demo", chars "d", [chars "python"], [chars "flask"], []⟩
    let fsO := (create_project allOk [chars "p"] planO true emptyFS).2
    let fsN := (create_project allOk [chars "p"] planN true emptyFS).2
    lookup_file fsO.files [chars "p", chars "demo", chars "README.md"] = some (chars "custom")
    ∧ lookup_file fsO.files [chars "p", chars "demo", chars "requirements.txt"]
        = some (chars "override")
    ∧ lookup_file fsN.files [chars "p", chars "demo", chars "README.md"]
        = some (readme_text planN)
    ∧ lookup_file fsN.files [chars "p", chars "demo", chars "requirements.txt"]
        = some (chars "flask\n") := by
  decide

/-- C6: applying an edit instruction with content `C` to path `P` and reading
`P` back yields exactly `C` (first conjunct — `C` may be any list, including
the empty one), and applying the same instruction twice yields the same
filesystem and outcome as applying it once (second conjunct). -/
theorem c6_round_trip_idempotent (env : FsEnv) (root : FilePath) (fs : FS)
    (p c : List Char) (s e : Nat)
    (h : env.writeErr (resolveRel root p) = none) :
    read_file (apply_edit env root fs ⟨p, c, s, e⟩).1 root p = some c
    ∧ apply_edit env root (apply_edit env root fs ⟨p, c, s, e⟩).1 ⟨p, c, s, e⟩
        = apply_edit env root fs ⟨p, c, s, e⟩ := by
  constructor
  · simp [apply_edit, h, read_file, set_file, lookup_file]
  · simp [apply_edit, h, set_file, mkdir_parents, List.filter_cons,
      filter_self_idem, add_dirs_idem]

/-- Witness for `c6_round_trip_idempotent` with the empty content. -/
theorem c6_round_trip_idempotent_witness :
    allOk.writeErr (resolveRel [chars "r"] (chars "a.txt")) = none
    ∧ (read_file (apply_edit allOk [chars "r"] emptyFS ⟨chars "a.txt", [], 0, 0⟩).1
         [chars "r"] (chars "a.txt") = some []
       ∧ apply_edit allOk [chars "r"]
           (apply_edit allOk [chars "r"] emptyFS ⟨chars "a.txt", [], 0, 0⟩).1
           ⟨chars "a.txt", [], 0, 0⟩
         = apply_edit allOk [chars "r"] emptyFS ⟨chars "a.txt", [], 0, 0⟩) :=
  ⟨rfl, c6_round_trip_idempotent allOk [chars "r"] emptyFS (chars "a.txt") [] 0 0 rfl⟩

/-- C7: inspecting a directory containing only a requirements.txt listing
`flask==2.0.1` and `requests>=2.0` infers exactly
`["python", "flask", "requests"]` — version specifiers stripped at the first
`==`/`>=` boundary — and duplicate dependency names are deduplicated
(second conjunct). -/
theorem c7_requirements_inference :
    load_project_technologies
      ⟨[([chars "r", chars "requirements.txt"], chars "flask==2.0.1\nrequests>=2.0\n")], []⟩
      [chars "r"] []
      = [chars "python", chars "flask", chars "requests"]
    ∧ load_project_technologies
        ⟨[([chars "r", chars "requirements.txt"], chars "flask==2.0.1\nflask>=1.0\n")], []⟩
        [chars "r"] []
      = [chars "python", chars "flask"] := by
  decide

/-- C8: a failing edit application does not prevent a later directive in the
same text from being parsed and applied, and the failure is surfaced inline
in the rendered response.  With two directives where the write of `a` fails
with `denied`: `b` is still written, `a` is not, and the rendered text is the
failure status line for `a` followed by the applied status line for `b` —
the round completes normally. -/
theorem c8_failures_isolated :
    let env : FsEnv := ⟨fun p => if p = [chars "r", chars "a"] then some (chars "denied") else none⟩
    let r := process_file_edits env [chars "r"] emptyFS
      (chars "FILE_EDIT: a\nx\nEND_FILE_EDIT\nFILE_EDIT: b\ny\nEND_FILE_EDIT")
    lookup_file r.1.files [chars "r", chars "b"] = some (chars "y")
    ∧ lookup_file r.1.files [chars "r", chars "a"] = none
    ∧ r.2 = failed_status (chars "a") (chars "denied") ++ applied_status (chars "b") := by
  decide

/-- C9: if the text ends inside an unclosed code fence, the formatted output
is exactly what was accumulated up to (and including) the opening banner —
the lines collected after the last opening fence contribute nothing, and no
closing banner is emitted. -/
theorem c9_unclosed_fence_drops (wrap : List Char → List Char) (t : List Char)
    (ls1 ls2 : List (List Char))
    (hsplit : t.splitOn '\n' = ls1 ++ ls2)
    (hin : (ls1.foldl (fmt_line wrap) ⟨[], false, []⟩).inCode = true)
    (hnf : ∀ l ∈ ls2, is_fence_line l = false) :
    format_terminal_text wrap t
      = List.intercalate (chars "\n")
          ((ls1.foldl (fmt_line wrap) ⟨[], false, []⟩).result) := by
  unfold format_terminal_text
  rw [hsplit, List.foldl_append, fmt_result_fixed wrap ls2 _ hin hnf]

/-- Witness for `c9_unclosed_fence_drops`: `"a\n```\nsecret"` formats to the
wrapped `a` plus the opening banner; `secret` is dropped. -/
theorem c9_unclosed_fence_drops_witness :
    format_terminal_text (fun l => l) (chars "a\n```\nsecret")
      = List.intercalate (chars "\n")
          (([chars "a", chars "```"].foldl (fmt_line (fun l => l)) ⟨[], false, []⟩).result)
    ∧ format_terminal_text (fun l => l) (chars "a\n```\nsecret")
      = chars "a\n\n\x1b[1m# Code:\x1b[0m" :=
  ⟨c9_unclosed_fence_drops (fun l => l) (chars "a\n```\nsecret")
     [chars "a", chars "```"] [chars "secret"] (by decide) (by decide) (by decide),
   by decide⟩

/-- C10: after a conversation round, the assistant message appended to the
session history carries the original, unmodified assistant response text —
directive substitution and terminal formatting never touch the stored
history, whatever edits occurred. -/
theorem c10_history_unmodified (env : FsEnv) (root : FilePath) (fs : FS)
    (wrap : List Char → List Char) (messages : List Message)
    (u r : List Char) :
    (chat_round env root fs wrap messages u r).1
      = messages ++ [⟨chars "user", u⟩, ⟨chars "assistant", r⟩] := by
  simp [chat_round]

end ProjectGen
